import Mathlib

set_option maxHeartbeats 1000000

/-!
Shallow embedding of the result aggregation and attachment re-association
logic of `azure_devops_result_publisher.py` (class
`AzureDevOpsTestResultPublisher`), together with theorems settling the
specification claims about it.

Modelling conventions:
* Python strings are lists of characters (`PyStr`).
* Python dicts are association lists kept in insertion order (`PyDict`);
  assignment to an existing key updates the value in place, assignment to a
  fresh key appends, exactly as in Python 3.7+ dictionaries.
* Floating point durations are modelled as rationals; none of the claims
  depends on rounding behaviour.
* The network side effects of the publish pass are reified as a list of
  upload actions; a failed dict lookup (Python `KeyError`) is modelled with
  `Except.error` carrying the missing key.
-/

namespace HelixReporter

/-- Python strings, as lists of characters. -/
abbrev PyStr := List Char

/-- One file attachment carried by a result record (`defs.TestResult.attachments`
entries have a `name` and a `text` payload). -/
structure Attachment where
  name : String
  text : String
deriving DecidableEq, Inhabited

/-- The flat result record (`defs.TestResult`) exactly as the publisher
consumes it: `name`, `kind`, `duration_seconds`, `result` (the outcome
string), `failure_message`, optional `stack_trace`, `skip_reason` and the
attachment list. -/
structure TestResult where
  name : PyStr
  kind : String
  duration_seconds : ℚ
  result : String
  failure_message : String
  stack_trace : Option String
  skip_reason : String
  attachments : List Attachment
deriving DecidableEq, Inhabited

/-- `azure.devops` `TestSubResult`, restricted to the fields the reporter
sets. Fields the constructor call omits are `none`. -/
structure TestSubResult where
  comment : String
  display_name : PyStr
  duration_in_ms : ℚ
  outcome : String
  stack_trace : Option String := none
  error_message : Option String := none
deriving DecidableEq, Inhabited

/-- `azure.devops` `TestCaseResult`, restricted to the fields the reporter
sets. `result_group_type` and `sub_results` are only ever set on grouped
(data-driven) nodes. -/
structure TestCaseResult where
  test_case_title : PyStr
  automated_test_name : PyStr
  automated_test_type : String
  automated_test_storage : String
  priority : Nat
  duration_in_ms : ℚ
  outcome : String
  state : String
  comment : String
  error_message : Option String := none
  stack_trace : Option String := none
  result_group_type : Option String := none
  sub_results : Option (List TestSubResult) := none
deriving DecidableEq, Inhabited

/-- Python `str.endswith(s)`: the last `s.length` characters equal `s`. -/
def py_endswith (r s : PyStr) : Bool := decide (r.drop (r.length - s.length) = s)

/-- Python `str.split(sep, 1)`: the field before the first separator, and,
when the separator occurs, the remainder after it. -/
def py_split1 (sep : Char) : PyStr → PyStr × Option PyStr
  | [] => ([], none)
  | c :: cs =>
    if c = sep then ([], some cs)
    else
      let p := py_split1 sep cs
      (c :: p.1, p.2)

/-- Python dict with string keys: an association list in insertion order. -/
abbrev PyDict (α : Type) := List (PyStr × α)

/-- Dict lookup (`d[k]` / `d.get(k)`), first matching key. -/
def dict_get? {α : Type} : PyDict α → PyStr → Option α
  | [], _ => none
  | (k, v) :: d, k' => if k = k' then some v else dict_get? d k'

/-- Dict assignment `d[k] = v`: update in place when the key exists
(keeping its position), append otherwise. -/
def dict_set {α : Type} : PyDict α → PyStr → α → PyDict α
  | [], k, v => [(k, v)]
  | (k', v') :: d, k, v => if k' = k then (k, v) :: d else (k', v') :: dict_set d k v

/-- Python `d.values()`, in insertion order. -/
def dict_values {α : Type} (d : PyDict α) : List α := d.map (fun p => p.2)

/-- `AzureDevOpsTestResultPublisher.is_data_driven_test`:
`return r.endswith(")")`. -/
def is_data_driven_test (r : PyStr) : Bool := py_endswith r [')']

/-- `AzureDevOpsTestResultPublisher.get_ddt_base_name`:
`return r.split('(',1)[0]`. -/
def get_ddt_base_name (r : PyStr) : PyStr := (py_split1 '(' r).1

/-- The nested `convert_to_sub_test` of `convert_results`. The correlation
`comment` string (built from environment variables) is a parameter. Returns
`none` (after a logged warning) for an unrecognized outcome value. -/
def convert_to_sub_test (comment : String) (r : TestResult) : Option TestSubResult :=
  if r.result = "Pass" then
    some { comment := comment
           display_name := r.name
           duration_in_ms := r.duration_seconds * 1000
           outcome := "Passed" }
  else if r.result = "Fail" then
    some { comment := comment
           display_name := r.name
           duration_in_ms := r.duration_seconds * 1000
           outcome := "Failed"
           stack_trace := r.stack_trace
           error_message := some r.failure_message }
  else if r.result = "Skip" then
    some { comment := comment
           display_name := r.name
           duration_in_ms := r.duration_seconds * 1000
           outcome := "NotExecuted" }
  else none

/-- The nested `convert_result` of `convert_results`. `work_item_name` is the
`automated_test_storage` value read from the environment. Returns `none`
(after a logged warning) for an unrecognized outcome value. -/
def convert_result (comment work_item_name : String) (r : TestResult) : Option TestCaseResult :=
  if r.result = "Pass" then
    some { test_case_title := r.name
           automated_test_name := r.name
           automated_test_type := r.kind
           automated_test_storage := work_item_name
           priority := 1
           duration_in_ms := r.duration_seconds * 1000
           outcome := "Passed"
           state := "Completed"
           comment := comment }
  else if r.result = "Fail" then
    some { test_case_title := r.name
           automated_test_name := r.name
           automated_test_type := r.kind
           automated_test_storage := work_item_name
           priority := 1
           duration_in_ms := r.duration_seconds * 1000
           outcome := "Failed"
           state := "Completed"
           error_message := some r.failure_message
           stack_trace := r.stack_trace
           comment := comment }
  else if r.result = "Skip" then
    some { test_case_title := r.name
           automated_test_name := r.name
           automated_test_type := r.kind
           automated_test_storage := work_item_name
           priority := 1
           duration_in_ms := r.duration_seconds * 1000
           outcome := "NotExecuted"
           state := "Completed"
           error_message := some r.skip_reason
           comment := comment }
  else none

/-- The mutable loop state of `convert_results`: the `data_driven_tests`
dict, the `non_data_driven_tests` list (which receives whatever
`convert_result` returned, including `None`), and the `test_name_ordering`
dict. -/
structure ConvertState where
  data_driven_tests : PyDict TestCaseResult
  non_data_driven_tests : List (Option TestCaseResult)
  test_name_ordering : PyDict (List PyStr)
deriving DecidableEq, Inhabited

/-- The empty state at the top of the `convert_results` loop. -/
def initConvertState : ConvertState := ⟨[], [], []⟩

/-- One iteration of the `for r in unconverted_results` loop of
`convert_results`. A `None` record is dropped. A non data-driven record is
converted (possibly to `None`) and appended, and its ordering entry is
assigned `[]`. A data-driven record is merged into the group of its base
name: appended as a sub-result when the base name is already present
(propagating a `Failed` outcome to the parent), otherwise seeding a new
group converted both as parent node and as first sub-result. In reachable
states a group key always has an ordering entry, so the `getD` defaults
never fire. -/
def convert_results_step (comment work_item_name : String) (s : ConvertState)
    (r? : Option TestResult) : ConvertState :=
  match r? with
  | none => s
  | some r =>
    if is_data_driven_test r.name = true then
      match dict_get? s.data_driven_tests (get_ddt_base_name r.name) with
      | some parent =>
        match convert_to_sub_test comment r with
        | none => s
        | some sub_test =>
          { s with
            data_driven_tests :=
              dict_set s.data_driven_tests (get_ddt_base_name r.name)
                { parent with
                  sub_results := some (parent.sub_results.getD [] ++ [sub_test])
                  outcome := if sub_test.outcome = "Failed" then "Failed" else parent.outcome }
            test_name_ordering :=
              dict_set s.test_name_ordering (get_ddt_base_name r.name)
                ((dict_get? s.test_name_ordering (get_ddt_base_name r.name)).getD [] ++ [r.name]) }
      | none =>
        match convert_result comment work_item_name r, convert_to_sub_test comment r with
        | some cr, some csr =>
          { s with
            data_driven_tests :=
              dict_set s.data_driven_tests (get_ddt_base_name r.name)
                { cr with
                  automated_test_name := get_ddt_base_name r.name
                  result_group_type := some "dataDriven"
                  sub_results := some [csr] }
            test_name_ordering :=
              dict_set s.test_name_ordering (get_ddt_base_name r.name) [r.name] }
        | _, _ => s
    else
      { s with
        non_data_driven_tests :=
          s.non_data_driven_tests ++ [convert_result comment work_item_name r]
        test_name_ordering := dict_set s.test_name_ordering r.name [] }

/-- The state after running the whole `convert_results` loop. -/
def convert_state (comment work_item_name : String)
    (results : List (Option TestResult)) : ConvertState :=
  results.foldl (convert_results_step comment work_item_name) initConvertState

/-- `AzureDevOpsTestResultPublisher.convert_results`: the returned node list
is `list(data_driven_tests.values()) + non_data_driven_tests` paired with the
`test_name_ordering` dict. -/
def convert_results (comment work_item_name : String)
    (results : List (Option TestResult)) :
    List (Option TestCaseResult) × PyDict (List PyStr) :=
  let s := convert_state comment work_item_name results
  ((dict_values s.data_driven_tests).map some ++ s.non_data_driven_tests,
   s.test_name_ordering)

/-- The `results_with_attachments` dict comprehension of `upload_batch`:
`{r.name: r for r in results if r is not None and r.attachments}`. -/
def results_with_attachments (results : List (Option TestResult)) : PyDict TestResult :=
  results.foldl
    (fun d r? =>
      match r? with
      | none => d
      | some r => if r.attachments = [] then d else dict_set d r.name r)
    []

/-- A sub-result as echoed back by the service: only a positional `id`. -/
structure PublishedSubResult where
  id : Int
deriving DecidableEq, Inhabited

/-- A published result as echoed back by `add_test_results_to_test_run`: the
service-assigned `id` (`-1` when the row was rejected), the
`automated_test_name`, and the positional sub-result list. -/
structure PublishedResult where
  id : Int
  automated_test_name : PyStr
  sub_results : Option (List PublishedSubResult)
deriving DecidableEq, Inhabited

/-- One attachment upload call: `send_attachment` against a result id, or
`send_sub_attachment` against a result id and a sub-result id. -/
inductive UploadAction where
  | parentAttachment (result_id : Int) (a : Attachment)
  | subAttachment (result_id : Int) (sub_result_id : Int) (a : Attachment)
deriving DecidableEq

/-- The text of the `log.warning` emitted when the echoed sub-result count
does not match the recorded ordering entry. -/
def length_mismatch_warning : String :=
  "Returned subresults list length does not match expected. Attachments may not pair correctly."

/-- The `for (name, sub_result) in zip(sub_results_order, published_result.sub_results)`
loop: positional pairing with shorter-length truncation; names present in the
attachment dict contribute one sub-result upload per attachment. -/
def sub_pair_actions (att : PyDict TestResult) (result_id : Int) :
    List PyStr → List PublishedSubResult → List UploadAction
  | [], _ => []
  | _ :: _, [] => []
  | name :: names, sub :: subs =>
    (match dict_get? att name with
     | some result =>
       result.attachments.map (fun a => UploadAction.subAttachment result_id sub.id a)
     | none => []) ++ sub_pair_actions att result_id names subs

/-- The body of the `publish_results` loop for a result that passed the
rejection check. An exact name match in the attachment dict uploads directly
against the result. Otherwise, when the result has sub-results, the ordering
entry is looked up (`test_result_order[name]`, a `KeyError` when absent,
modelled as `Except.error`), a length-mismatch warning may be logged, and the
zip pairing runs. Returns the upload actions and the logged warnings. -/
def process_accepted_result (order : PyDict (List PyStr)) (att : PyDict TestResult)
    (p : PublishedResult) : Except PyStr (List UploadAction × List String) :=
  match dict_get? att p.automated_test_name with
  | some result =>
    .ok (result.attachments.map (fun a => UploadAction.parentAttachment p.id a), [])
  | none =>
    match p.sub_results with
    | none => .ok ([], [])
    | some subs =>
      match dict_get? order p.automated_test_name with
      | none => .error p.automated_test_name
      | some sub_results_order =>
        .ok (sub_pair_actions att p.id sub_results_order subs,
             if sub_results_order.length = subs.length then [] else [length_mismatch_warning])

/-- The attachment re-association pass of
`AzureDevOpsTestResultPublisher.publish_results` over the list echoed back by
the service: a result with the rejection sentinel `id = -1` is skipped
outright (`continue`), every other result goes through attachment handling
and is counted as touched. Returns the upload actions, the warnings, and the
number of touched results, or the first lookup failure. -/
def publish_results (order : PyDict (List PyStr)) (att : PyDict TestResult) :
    List PublishedResult → Except PyStr (List UploadAction × List String × Nat)
  | [] => .ok ([], [], 0)
  | p :: ps =>
    if p.id = -1 then publish_results order att ps
    else
      match process_accepted_result order att p with
      | .error e => .error e
      | .ok (acts, warns) =>
        match publish_results order att ps with
        | .error e => .error e
        | .ok (acts', warns', touched) =>
          .ok (acts ++ acts', warns ++ warns', touched + 1)

/-- An outcome string the conversion functions recognize. -/
def is_recognized (res : String) : Bool :=
  decide (res = "Pass" ∨ res = "Fail" ∨ res = "Skip")

/-- Specification-side description: the original names of the data-driven
variant records of `base` whose outcome is recognized, in input order. -/
def recognized_variant_names (base : PyStr) (results : List (Option TestResult)) :
    List PyStr :=
  ((results.filterMap id).filter
    (fun r => is_data_driven_test r.name && is_recognized r.result &&
      decide (get_ddt_base_name r.name = base))).map (fun r => r.name)

/-- Append an element unless already present. -/
def insert_new (l : List PyStr) (x : PyStr) : List PyStr := if x ∈ l then l else l ++ [x]

/-- One record of the group-creation-order scan. -/
def group_bases_step (acc : List PyStr) (r? : Option TestResult) : List PyStr :=
  match r? with
  | none => acc
  | some r =>
    if is_data_driven_test r.name && is_recognized r.result then
      insert_new acc (get_ddt_base_name r.name)
    else acc

/-- Specification-side description: the base names of the data-driven groups
in creation order, i.e. ordered by the first variant record with a
recognized outcome for each base. -/
def group_bases (results : List (Option TestResult)) : List PyStr :=
  results.foldl group_bases_step []

/-- Specification-side description: the non data-driven records, in input
order. -/
def standalone_records (results : List (Option TestResult)) : List TestResult :=
  (results.filterMap id).filter (fun r => !is_data_driven_test r.name)

/-- A result record used throughout the concrete witnesses. -/
def mkRecord (n res : String) : TestResult :=
  { name := n.data
    kind := "junit"
    duration_seconds := 1
    result := res
    failure_message := "boom"
    stack_trace := none
    skip_reason := "skipped"
    attachments := [] }

/-! ### Association list lemmas -/

theorem dict_get?_set_self {α : Type} (d : PyDict α) (k : PyStr) (v : α) :
    dict_get? (dict_set d k v) k = some v := by
  induction d with
  | nil => simp [dict_set, dict_get?]
  | cons q d ih =>
    obtain ⟨k₀, v₀⟩ := q
    by_cases h : k₀ = k
    · subst h
      simp [dict_set, dict_get?]
    · simp [dict_set, dict_get?, h, ih]

theorem dict_get?_set_ne {α : Type} (d : PyDict α) (k k' : PyStr) (v : α) (h : k ≠ k') :
    dict_get? (dict_set d k v) k' = dict_get? d k' := by
  induction d with
  | nil => simp [dict_set, dict_get?, h]
  | cons q d ih =>
    obtain ⟨k₀, v₀⟩ := q
    by_cases h0 : k₀ = k
    · subst h0
      simp [dict_set, dict_get?, h]
    · simp [dict_set, dict_get?, h0, ih]

theorem mem_dict_set {α : Type} {d : PyDict α} {k : PyStr} {v : α} {q : PyStr × α}
    (h : q ∈ dict_set d k v) : q = (k, v) ∨ q ∈ d := by
  induction d with
  | nil =>
    simp [dict_set] at h
    simp [h]
  | cons q₀ d ih =>
    obtain ⟨k₀, v₀⟩ := q₀
    by_cases h0 : k₀ = k
    · subst h0
      simp [dict_set] at h
      rcases h with h | h
      · exact Or.inl h
      · exact Or.inr (List.mem_cons_of_mem _ h)
    · simp [dict_set, h0] at h
      rcases h with h | h
      · exact Or.inr (by simp [h])
      · rcases ih h with h' | h'
        · exact Or.inl h'
        · exact Or.inr (List.mem_cons_of_mem _ h')

theorem dict_set_eq_append {α : Type} {d : PyDict α} {k : PyStr} (v : α)
    (h : dict_get? d k = none) : dict_set d k v = d ++ [(k, v)] := by
  induction d with
  | nil => simp [dict_set]
  | cons q d ih =>
    obtain ⟨k₀, v₀⟩ := q
    by_cases h0 : k₀ = k
    · simp [dict_get?, h0] at h
    · simp only [dict_get?, h0, if_false, if_neg h0] at h
      simp [dict_set, h0, ih h]

theorem dict_keys_set_of_isSome {α : Type} {d : PyDict α} {k : PyStr} (v : α)
    (h : (dict_get? d k).isSome = true) :
    (dict_set d k v).map (fun q => q.1) = d.map (fun q => q.1) := by
  induction d with
  | nil => simp [dict_get?] at h
  | cons q d ih =>
    obtain ⟨k₀, v₀⟩ := q
    by_cases h0 : k₀ = k
    · subst h0
      simp [dict_set]
    · simp only [dict_get?, h0, if_neg h0] at h
      simp [dict_set, h0, ih h]

theorem dict_get?_isSome_iff {α : Type} (d : PyDict α) (k : PyStr) :
    (dict_get? d k).isSome = true ↔ k ∈ d.map (fun q => q.1) := by
  induction d with
  | nil => simp [dict_get?]
  | cons q d ih =>
    obtain ⟨k₀, v₀⟩ := q
    by_cases h0 : k₀ = k
    · subst h0
      constructor
      · intro _
        rw [List.map_cons]
        exact List.mem_cons_self _ _
      · intro _
        have h1 : dict_get? ((k₀, v₀) :: d) k₀ = some v₀ := if_pos rfl
        rw [h1]
        rfl
    · simp only [dict_get?, if_neg h0, List.map_cons, List.mem_cons]
      rw [ih]
      constructor
      · exact fun hmem => Or.inr hmem
      · rintro (h' | h')
        · exact absurd h'.symm h0
        · exact h'

theorem dict_get?_mem {α : Type} {d : PyDict α} {k : PyStr} {v : α}
    (h : dict_get? d k = some v) : (k, v) ∈ d := by
  induction d with
  | nil => simp [dict_get?] at h
  | cons q d ih =>
    obtain ⟨k₀, v₀⟩ := q
    by_cases h0 : k₀ = k
    · subst h0
      simp [dict_get?] at h
      simp [h]
    · simp only [dict_get?, h0, if_neg h0] at h
      exact List.mem_cons_of_mem _ (ih h)

/-! ### Conversion lemmas -/

theorem convert_result_eq_none_iff (c w : String) (r : TestResult) :
    convert_result c w r = none ↔ is_recognized r.result = false := by
  by_cases h1 : r.result = "Pass" <;> by_cases h2 : r.result = "Fail" <;>
    by_cases h3 : r.result = "Skip" <;>
    simp [convert_result, is_recognized, h1, h2, h3]

theorem convert_to_sub_test_eq_none_iff (c : String) (r : TestResult) :
    convert_to_sub_test c r = none ↔ is_recognized r.result = false := by
  by_cases h1 : r.result = "Pass" <;> by_cases h2 : r.result = "Fail" <;>
    by_cases h3 : r.result = "Skip" <;>
    simp [convert_to_sub_test, is_recognized, h1, h2, h3]

theorem convert_result_of_recognized (c w : String) (r : TestResult)
    (h : is_recognized r.result = true) : ∃ cr, convert_result c w r = some cr := by
  rcases hcr : convert_result c w r with _ | cr
  · rw [convert_result_eq_none_iff] at hcr
    rw [hcr] at h
    cases h
  · exact ⟨cr, rfl⟩

theorem convert_to_sub_test_of_recognized (c : String) (r : TestResult)
    (h : is_recognized r.result = true) : ∃ csr, convert_to_sub_test c r = some csr := by
  rcases hcsr : convert_to_sub_test c r with _ | csr
  · rw [convert_to_sub_test_eq_none_iff] at hcsr
    rw [hcsr] at h
    cases h
  · exact ⟨csr, rfl⟩

theorem convert_outcome_eq (c w : String) (r : TestResult) {cr : TestCaseResult}
    {csr : TestSubResult} (h1 : convert_result c w r = some cr)
    (h2 : convert_to_sub_test c r = some csr) : cr.outcome = csr.outcome := by
  by_cases ha : r.result = "Pass"
  · simp [convert_result, convert_to_sub_test, ha] at h1 h2
    rw [← h1, ← h2]
  · by_cases hb : r.result = "Fail"
    · simp [convert_result, convert_to_sub_test, ha, hb] at h1 h2
      rw [← h1, ← h2]
    · by_cases hc : r.result = "Skip"
      · simp [convert_result, convert_to_sub_test, ha, hb, hc] at h1 h2
        rw [← h1, ← h2]
      · simp [convert_result, ha, hb, hc] at h1

theorem convert_result_sub_results_none (c w : String) (r : TestResult) {cr : TestCaseResult}
    (h : convert_result c w r = some cr) : cr.sub_results = none := by
  by_cases ha : r.result = "Pass"
  · simp [convert_result, ha] at h
    rw [← h]
  · by_cases hb : r.result = "Fail"
    · simp [convert_result, ha, hb] at h
      rw [← h]
    · by_cases hc : r.result = "Skip"
      · simp [convert_result, ha, hb, hc] at h
        rw [← h]
      · simp [convert_result, ha, hb, hc] at h

/-! ### A generic invariant rule for the conversion loop -/

theorem foldl_inv {σ : Type} (f : σ → Option TestResult → σ)
    (P : List (Option TestResult) → σ → Prop) (Q : Option TestResult → Prop)
    (hstep : ∀ pre s r?, Q r? → P pre s → P (pre ++ [r?]) (f s r?)) :
    ∀ (rs pre : List (Option TestResult)) (s : σ),
      (∀ r? ∈ rs, Q r?) → P pre s → P (pre ++ rs) (rs.foldl f s) := by
  intro rs
  induction rs with
  | nil =>
    intro pre s _ hp
    simpa using hp
  | cons r? rs ih =>
    intro pre s hq hp
    have h1 : P (pre ++ [r?]) (f s r?) := hstep pre s r? (hq r? (by simp)) hp
    have h2 := ih (pre ++ [r?]) (f s r?) (fun x hx => hq x (by simp [hx])) h1
    simpa using h2

/-! ### Claim C7: variant classification and base names -/

theorem py_endswith_close_paren_iff (r : PyStr) :
    py_endswith r [')'] = true ↔ r.getLast? = some ')' := by
  induction r with
  | nil => simp [py_endswith]
  | cons c cs ih =>
    cases cs with
    | nil => simp [py_endswith, List.getLast?]
    | cons c2 cs2 =>
      have h1 : py_endswith (c :: c2 :: cs2) [')'] = py_endswith (c2 :: cs2) [')'] := rfl
      rw [h1, ih, List.getLast?_cons_cons]

theorem get_ddt_base_name_eq_takeWhile (r : PyStr) :
    get_ddt_base_name r = r.takeWhile (fun c => c != '(') := by
  induction r with
  | nil => rfl
  | cons c cs ih =>
    by_cases h : c = '('
    · subst h
      simp [get_ddt_base_name, py_split1, List.takeWhile_cons]
    · have h1 : get_ddt_base_name (c :: cs) = c :: get_ddt_base_name cs := by
        simp [get_ddt_base_name, py_split1, h]
      rw [h1, ih, List.takeWhile_cons]
      simp [h]

/-- Claim C7: a record name is classified data-driven exactly when its last
character is a closing parenthesis, and the computed base name is the
longest prefix before the first opening parenthesis (the whole name when no
opening parenthesis occurs, since `takeWhile` then keeps everything). -/
theorem ddt_classification (r : PyStr) :
    (is_data_driven_test r = true ↔ r.getLast? = some ')') ∧
    get_ddt_base_name r = r.takeWhile (fun c => c != '(') :=
  ⟨py_endswith_close_paren_iff r, get_ddt_base_name_eq_takeWhile r⟩

/-! ### Claim C9: the skip-reason asymmetry -/

/-- Claim C9: converting a `Skip` record as a standalone node copies the
skip reason into the error message, while converting the same record as a
sub-result yields outcome `NotExecuted` with no error message and no stack
trace (a `TestSubResult` carries no skip-reason field at all). -/
theorem skip_reason_asymmetry (c w : String) (r : TestResult) (h : r.result = "Skip") :
    ∃ node sub,
      convert_result c w r = some node ∧
      node.outcome = "NotExecuted" ∧
      node.error_message = some r.skip_reason ∧
      convert_to_sub_test c r = some sub ∧
      sub.outcome = "NotExecuted" ∧
      sub.error_message = none ∧
      sub.stack_trace = none := by
  have hcr : convert_result c w r =
      some { test_case_title := r.name
             automated_test_name := r.name
             automated_test_type := r.kind
             automated_test_storage := w
             priority := 1
             duration_in_ms := r.duration_seconds * 1000
             outcome := "NotExecuted"
             state := "Completed"
             error_message := some r.skip_reason
             comment := c } := by
    simp only [convert_result, h]
    rw [if_neg (by decide), if_neg (by decide)]
    simp
  have hcsr : convert_to_sub_test c r =
      some { comment := c
             display_name := r.name
             duration_in_ms := r.duration_seconds * 1000
             outcome := "NotExecuted" } := by
    simp only [convert_to_sub_test, h]
    rw [if_neg (by decide), if_neg (by decide)]
    simp
  exact ⟨_, _, hcr, rfl, rfl, hcsr, rfl, rfl, rfl⟩

theorem skip_reason_asymmetry_witness :
    (mkRecord "T" "Skip").result = "Skip" ∧
    ∃ node sub,
      convert_result "" "" (mkRecord "T" "Skip") = some node ∧
      node.outcome = "NotExecuted" ∧
      node.error_message = some (mkRecord "T" "Skip").skip_reason ∧
      convert_to_sub_test "" (mkRecord "T" "Skip") = some sub ∧
      sub.outcome = "NotExecuted" ∧
      sub.error_message = none ∧
      sub.stack_trace = none :=
  ⟨rfl, skip_reason_asymmetry "" "" (mkRecord "T" "Skip") rfl⟩

/-! ### Claim C6: unrecognized outcome values -/

/-- Claim C6 counterexample: a standalone record with the unrecognized
outcome value `Bogus` is not skipped without trace. The node list returned
by `convert_results` contains an entry for it (the `None` that
`convert_result` returned is appended to `non_data_driven_tests`), so the
node list is `[none]` rather than empty, and an ordering entry is still
registered under the record name. -/
theorem unrecognized_standalone_not_skipped :
    (convert_results "" "" [some (mkRecord "C" "Bogus")]).1 = [none] ∧
    (convert_results "" "" [some (mkRecord "C" "Bogus")]).1 ≠ [] ∧
    dict_get? (convert_results "" "" [some (mkRecord "C" "Bogus")]).2
      (mkRecord "C" "Bogus").name = some [] := by
  refine ⟨by decide, by decide, by decide⟩

/-- Claim C6 (amended): a record whose outcome value is unrecognized yields
no converted node and no sub-result on the two data-driven paths (first-seen
and already-seen), where the loop state is left unchanged; on the standalone
path, however, the `None` returned by `convert_result` is appended to the
node list and an empty ordering entry is registered under the record name.
In every case the loop continues with the remaining records. -/
theorem unrecognized_record_handling (c w : String) (s : ConvertState) (r : TestResult)
    (h : is_recognized r.result = false) :
    (is_data_driven_test r.name = true → convert_results_step c w s (some r) = s) ∧
    (is_data_driven_test r.name = false →
      convert_results_step c w s (some r) =
        { s with
          non_data_driven_tests := s.non_data_driven_tests ++ [none]
          test_name_ordering := dict_set s.test_name_ordering r.name [] }) := by
  have hcr : convert_result c w r = none := (convert_result_eq_none_iff c w r).2 h
  have hcsr : convert_to_sub_test c r = none := (convert_to_sub_test_eq_none_iff c r).2 h
  constructor
  · intro hdd
    cases hlook : dict_get? s.data_driven_tests (get_ddt_base_name r.name) with
    | none => simp [convert_results_step, hdd, hlook, hcr]
    | some parent => simp [convert_results_step, hdd, hlook, hcsr]
  · intro hdd
    simp [convert_results_step, hdd, hcr]

theorem unrecognized_record_handling_witness :
    is_recognized (mkRecord "C" "Bogus").result = false ∧
    is_data_driven_test (mkRecord "C" "Bogus").name = false ∧
    convert_results_step "" "" initConvertState (some (mkRecord "C" "Bogus")) =
      { initConvertState with
        non_data_driven_tests := initConvertState.non_data_driven_tests ++ [none]
        test_name_ordering :=
          dict_set initConvertState.test_name_ordering (mkRecord "C" "Bogus").name [] } :=
  ⟨by decide, by decide,
    (unrecognized_record_handling "" "" initConvertState (mkRecord "C" "Bogus")
      (by decide)).2 (by decide)⟩

/-! ### Claim C8: seeding a new data-driven group -/

/-- Claim C8: a data-driven record whose base name is not yet a group key
and whose outcome is recognized is converted twice, once by
`convert_result` into the seed node (whose `automated_test_name` is
overwritten to the base name and which is marked with
`result_group_type = "dataDriven"`) and once by `convert_to_sub_test` into
the single first sub-result, and the ordering entry under the base name
becomes exactly the one original record name. -/
theorem first_seen_ddt_seeds_group (c w : String) (s : ConvertState) (r : TestResult)
    (hddt : is_data_driven_test r.name = true)
    (hnew : dict_get? s.data_driven_tests (get_ddt_base_name r.name) = none)
    (hrec : is_recognized r.result = true) :
    ∃ cr csr,
      convert_result c w r = some cr ∧
      convert_to_sub_test c r = some csr ∧
      convert_results_step c w s (some r) =
        { s with
          data_driven_tests :=
            dict_set s.data_driven_tests (get_ddt_base_name r.name)
              { cr with
                automated_test_name := get_ddt_base_name r.name
                result_group_type := some "dataDriven"
                sub_results := some [csr] }
          test_name_ordering :=
            dict_set s.test_name_ordering (get_ddt_base_name r.name) [r.name] } := by
  obtain ⟨cr, hcr⟩ := convert_result_of_recognized c w r hrec
  obtain ⟨csr, hcsr⟩ := convert_to_sub_test_of_recognized c r hrec
  refine ⟨cr, csr, hcr, hcsr, ?_⟩
  simp [convert_results_step, hddt, hnew, hcr, hcsr]

theorem first_seen_ddt_seeds_group_witness :
    is_data_driven_test (mkRecord "A(1)" "Pass").name = true ∧
    dict_get? initConvertState.data_driven_tests
      (get_ddt_base_name (mkRecord "A(1)" "Pass").name) = none ∧
    is_recognized (mkRecord "A(1)" "Pass").result = true ∧
    ∃ cr csr,
      convert_result "" "" (mkRecord "A(1)" "Pass") = some cr ∧
      convert_to_sub_test "" (mkRecord "A(1)" "Pass") = some csr ∧
      convert_results_step "" "" initConvertState (some (mkRecord "A(1)" "Pass")) =
        { initConvertState with
          data_driven_tests :=
            dict_set initConvertState.data_driven_tests
              (get_ddt_base_name (mkRecord "A(1)" "Pass").name)
              { cr with
                automated_test_name := get_ddt_base_name (mkRecord "A(1)" "Pass").name
                result_group_type := some "dataDriven"
                sub_results := some [csr] }
          test_name_ordering :=
            dict_set initConvertState.test_name_ordering
              (get_ddt_base_name (mkRecord "A(1)" "Pass").name)
              [(mkRecord "A(1)" "Pass").name] } :=
  ⟨by decide, rfl, by decide,
    first_seen_ddt_seeds_group "" "" initConvertState (mkRecord "A(1)" "Pass")
      (by decide) rfl (by decide)⟩

/-! ### Claims C4, C5, C10: the attachment re-association pass -/

/-- Well-formedness of one accepted published row with respect to the two
lookup dicts: when its name has no exact attachment match and it carries
sub-results, the ordering dict has an entry for its name — this is exactly
what rules out the `KeyError` of `test_result_order[name]`, and holds for
every row produced by the round trip through `convert_results`. -/
def accepted_wf (order : PyDict (List PyStr)) (att : PyDict TestResult)
    (p : PublishedResult) : Prop :=
  ((dict_get? att p.automated_test_name).isSome || !p.sub_results.isSome ||
    (dict_get? order p.automated_test_name).isSome) = true

instance (order : PyDict (List PyStr)) (att : PyDict TestResult) (p : PublishedResult) :
    Decidable (accepted_wf order att p) := by
  unfold accepted_wf
  infer_instance

theorem process_accepted_of_wf (order : PyDict (List PyStr)) (att : PyDict TestResult)
    (p : PublishedResult) (h : accepted_wf order att p) :
    ∃ aw, process_accepted_result order att p = .ok aw := by
  unfold accepted_wf at h
  unfold process_accepted_result
  cases hatt : dict_get? att p.automated_test_name with
  | some result => exact ⟨_, rfl⟩
  | none =>
    cases hsub : p.sub_results with
    | none => exact ⟨_, rfl⟩
    | some subs =>
      cases hord : dict_get? order p.automated_test_name with
      | none =>
        rw [hatt, hsub, hord] at h
        simp at h
      | some os => exact ⟨_, rfl⟩

theorem publish_results_filter (order : PyDict (List PyStr)) (att : PyDict TestResult) :
    ∀ ps : List PublishedResult,
      publish_results order att ps =
        publish_results order att (ps.filter (fun p => !decide (p.id = -1))) := by
  intro ps
  induction ps with
  | nil => rfl
  | cons p ps ih =>
    by_cases h : p.id = -1
    · have hf : (p :: ps).filter (fun p => !decide (p.id = -1)) =
          ps.filter (fun p => !decide (p.id = -1)) := by
        simp [List.filter_cons, h]
      rw [hf]
      simp only [publish_results, if_pos h]
      exact ih
    · have hf : (p :: ps).filter (fun p => !decide (p.id = -1)) =
          p :: ps.filter (fun p => !decide (p.id = -1)) := by
        simp [List.filter_cons, h]
      rw [hf]
      simp only [publish_results, if_neg h]
      rw [ih]

theorem publish_results_ok_of_wf (order : PyDict (List PyStr)) (att : PyDict TestResult) :
    ∀ ps : List PublishedResult, (∀ p ∈ ps, p.id ≠ -1 → accepted_wf order att p) →
      ∃ acts warns, publish_results order att ps =
        .ok (acts, warns, ps.countP (fun p => !decide (p.id = -1))) := by
  intro ps
  induction ps with
  | nil => exact fun _ => ⟨[], [], rfl⟩
  | cons p ps ih =>
    intro hwf
    obtain ⟨acts', warns', hrec⟩ := ih (fun q hq hid => hwf q (List.mem_cons_of_mem _ hq) hid)
    by_cases h : p.id = -1
    · refine ⟨acts', warns', ?_⟩
      simp only [publish_results, if_pos h, List.countP_cons, h]
      simpa using hrec
    · obtain ⟨⟨acts, warns⟩, hproc⟩ := process_accepted_of_wf order att p (hwf p (by simp) h)
      refine ⟨acts ++ acts', warns ++ warns', ?_⟩
      simp only [publish_results, if_neg h, hproc, hrec, List.countP_cons, h]
      simp

theorem countP_sentinel_split (l : List PublishedResult) :
    l.countP (fun p => decide (p.id = -1)) + l.countP (fun p => !decide (p.id = -1)) =
      l.length := by
  induction l with
  | nil => rfl
  | cons p l ih =>
    by_cases h : p.id = -1 <;> simp [List.countP_cons, h] <;> omega

/-- Claim C4: the re-association pass skips every published row whose id is
the rejection sentinel `-1` entirely — the pass computes the same actions,
warnings and touch count as on the list with the sentinel rows removed —
and, when exactly one of the `N` rows carries the sentinel and the accepted
rows are well formed, the pass succeeds (raises no error) and touches
exactly `N - 1` rows. -/
theorem rejected_rows_skipped (order : PyDict (List PyStr)) (att : PyDict TestResult)
    (published : List PublishedResult)
    (hone : published.countP (fun p => decide (p.id = -1)) = 1)
    (hwf : ∀ p ∈ published, p.id ≠ -1 → accepted_wf order att p) :
    publish_results order att published =
      publish_results order att (published.filter (fun p => !decide (p.id = -1))) ∧
    ∃ acts warns,
      publish_results order att published = .ok (acts, warns, published.length - 1) := by
  have hsplit := countP_sentinel_split published
  have hcount : published.countP (fun p => !decide (p.id = -1)) = published.length - 1 := by
    omega
  refine ⟨publish_results_filter order att published, ?_⟩
  obtain ⟨acts, warns, hok⟩ := publish_results_ok_of_wf order att published hwf
  exact ⟨acts, warns, by rwa [hcount] at hok⟩

theorem rejected_rows_skipped_witness :
    ([⟨-1, "X".data, none⟩, ⟨5, "Y".data, none⟩] : List PublishedResult).countP
      (fun p => decide (p.id = -1)) = 1 ∧
    (∀ p ∈ ([⟨-1, "X".data, none⟩, ⟨5, "Y".data, none⟩] : List PublishedResult),
      p.id ≠ -1 → accepted_wf [] [] p) ∧
    (publish_results [] [] [⟨-1, "X".data, none⟩, ⟨5, "Y".data, none⟩] =
        publish_results [] []
          (([⟨-1, "X".data, none⟩, ⟨5, "Y".data, none⟩] :
            List PublishedResult).filter (fun p => !decide (p.id = -1))) ∧
      ∃ acts warns,
        publish_results [] [] [⟨-1, "X".data, none⟩, ⟨5, "Y".data, none⟩] =
          .ok (acts, warns,
            ([⟨-1, "X".data, none⟩, ⟨5, "Y".data, none⟩] :
              List PublishedResult).length - 1)) :=
  ⟨by decide, by decide,
    rejected_rows_skipped [] [] [⟨-1, "X".data, none⟩, ⟨5, "Y".data, none⟩]
      (by decide) (by decide)⟩

/-- Claim C5: for an accepted published row with sub-results, no exact-name
attachment match, and a recorded ordering entry whose length differs from
the echoed sub-result count, the pass still succeeds: the length-mismatch
warning is logged and the pairing proceeds positionally by `zip`, which
truncates to the shorter of the two lists. -/
theorem mismatch_warns_then_zips (order : PyDict (List PyStr)) (att : PyDict TestResult)
    (p : PublishedResult) (os : List PyStr) (subs : List PublishedSubResult)
    (hid : p.id ≠ -1)
    (hatt : dict_get? att p.automated_test_name = none)
    (hsub : p.sub_results = some subs)
    (hord : dict_get? order p.automated_test_name = some os)
    (hlen : os.length ≠ subs.length) :
    publish_results order att [p] =
      .ok (sub_pair_actions att p.id os subs, [length_mismatch_warning], 1) ∧
    (os.zip subs).length = min os.length subs.length := by
  constructor
  · simp [publish_results, hid, process_accepted_result, hatt, hsub, hord, hlen]
  · simp

theorem mismatch_warns_then_zips_witness :
    ((⟨3, "G".data, some [⟨11⟩]⟩ : PublishedResult).id ≠ -1) ∧
    dict_get? ([] : PyDict TestResult)
      (⟨3, "G".data, some [⟨11⟩]⟩ : PublishedResult).automated_test_name = none ∧
    (⟨3, "G".data, some [⟨11⟩]⟩ : PublishedResult).sub_results = some [⟨11⟩] ∧
    dict_get? [("G".data, ["G(1)".data, "G(2)".data])]
      (⟨3, "G".data, some [⟨11⟩]⟩ : PublishedResult).automated_test_name =
      some ["G(1)".data, "G(2)".data] ∧
    (["G(1)".data, "G(2)".data] : List PyStr).length ≠
      ([⟨11⟩] : List PublishedSubResult).length ∧
    (publish_results [("G".data, ["G(1)".data, "G(2)".data])] [] [⟨3, "G".data, some [⟨11⟩]⟩] =
        .ok (sub_pair_actions [] 3 ["G(1)".data, "G(2)".data] [⟨11⟩],
          [length_mismatch_warning], 1) ∧
      ((["G(1)".data, "G(2)".data] : List PyStr).zip ([⟨11⟩] : List PublishedSubResult)).length =
        min (["G(1)".data, "G(2)".data] : List PyStr).length
          ([⟨11⟩] : List PublishedSubResult).length) :=
  ⟨by decide, rfl, rfl, by decide, by decide,
    mismatch_warns_then_zips [("G".data, ["G(1)".data, "G(2)".data])] []
      ⟨3, "G".data, some [⟨11⟩]⟩ ["G(1)".data, "G(2)".data] [⟨11⟩]
      (by decide) rfl rfl (by decide) (by decide)⟩

/-- Claim C10: the exact-name branch is tested first. For an accepted
published row whose own name has an exact match in the attachment dict, the
pass uploads exactly that entry's attachments against the parent row id and
logs nothing, whatever the row's sub-results and whatever the ordering dict
contain — the sub-result branch (and hence every per-variant attachment) is
never reached for that row. -/
theorem exact_name_match_short_circuits (order : PyDict (List PyStr))
    (att : PyDict TestResult) (p : PublishedResult) (result : TestResult)
    (hid : p.id ≠ -1)
    (hatt : dict_get? att p.automated_test_name = some result) :
    publish_results order att [p] =
      .ok (result.attachments.map (fun a => UploadAction.parentAttachment p.id a), [], 1) := by
  simp [publish_results, hid, process_accepted_result, hatt]

/-- A record with one attachment, used by the C10 witness. -/
def attachedRecord (n : String) : TestResult :=
  { name := n.data
    kind := "junit"
    duration_seconds := 1
    result := "Pass"
    failure_message := ""
    stack_trace := none
    skip_reason := ""
    attachments := [⟨"console.log", "output"⟩] }

theorem exact_name_match_short_circuits_witness :
    ((⟨7, "G".data, some [⟨21⟩]⟩ : PublishedResult).id ≠ -1) ∧
    dict_get? [("G".data, attachedRecord "G"), ("G(1)".data, attachedRecord "G(1)")]
      (⟨7, "G".data, some [⟨21⟩]⟩ : PublishedResult).automated_test_name =
      some (attachedRecord "G") ∧
    publish_results [] [("G".data, attachedRecord "G"), ("G(1)".data, attachedRecord "G(1)")]
        [⟨7, "G".data, some [⟨21⟩]⟩] =
      .ok ((attachedRecord "G").attachments.map
        (fun a => UploadAction.parentAttachment (7 : Int) a), [], 1) :=
  ⟨by decide, by decide,
    exact_name_match_short_circuits []
      [("G".data, attachedRecord "G"), ("G(1)".data, attachedRecord "G(1)")]
      ⟨7, "G".data, some [⟨21⟩]⟩ (attachedRecord "G") (by decide) (by decide)⟩

/-! ### Claims C2 and C3: counterexamples -/

/-- Claim C2 counterexample: with input
`[A(1)=Pass, A(2)=Bogus, A=Pass]` the final ordering entry for base `A` is
`[]`, not the variant list `[A(1), A(2)]`: the unrecognized variant `A(2)`
is never appended, and the standalone record named exactly `A` overwrites
the entry with the empty list. -/
theorem ordering_entry_not_all_variants :
    dict_get? (convert_results "" ""
      [some (mkRecord "A(1)" "Pass"), some (mkRecord "A(2)" "Bogus"),
       some (mkRecord "A" "Pass")]).2 "A".data = some [] ∧
    ([] : List PyStr) ≠ ["A(1)".data, "A(2)".data] := by
  refine ⟨by decide, by decide⟩

/-- Claim C3 counterexample: with input
`[A(1)=Bogus, B(1)=Pass, A(2)=Pass]` the base name `A` appears first in the
input (record 0 is the variant `A(1)`), yet the grouped node for `B`
precedes the grouped node for `A` in the output, because a group is keyed
into the dict only when its first variant with a recognized outcome
arrives. -/
theorem grouped_nodes_not_in_first_appearance_order :
    ((convert_results "" ""
        [some (mkRecord "A(1)" "Bogus"), some (mkRecord "B(1)" "Pass"),
         some (mkRecord "A(2)" "Pass")]).1).map
        (Option.map (fun n => n.automated_test_name)) =
      [some "B".data, some "A".data] ∧
    ([some (mkRecord "A(1)" "Bogus"), some (mkRecord "B(1)" "Pass"),
      some (mkRecord "A(2)" "Pass")] : List (Option TestResult)).headI =
      some (mkRecord "A(1)" "Bogus") ∧
    is_data_driven_test (mkRecord "A(1)" "Bogus").name = true ∧
    get_ddt_base_name (mkRecord "A(1)" "Bogus").name = "A".data ∧
    "A".data ≠ "B".data := by
  refine ⟨by decide, by decide, by decide, by decide, by decide⟩

/-! ### Claim C1: the grouped outcome invariant -/

/-- The invariant of one grouped node: a non-empty sub-result list, outcome
`Failed` exactly when some sub-result failed, and otherwise the outcome of
the first sub-result (the variant whose conversion seeded the group). -/
def GroupInv (tc : TestCaseResult) : Prop :=
  ∃ subs, tc.sub_results = some subs ∧ subs ≠ [] ∧
    (tc.outcome = "Failed" ↔ ∃ sub ∈ subs, sub.outcome = "Failed") ∧
    ((¬ ∃ sub ∈ subs, sub.outcome = "Failed") → tc.outcome = subs.headI.outcome)

/-- The loop-state invariant behind claim C1: every entry of the group dict
satisfies `GroupInv`, and every converted standalone node has no
sub-results. -/
def StateInv (s : ConvertState) : Prop :=
  (∀ q ∈ s.data_driven_tests, GroupInv q.2) ∧
  (∀ tc? ∈ s.non_data_driven_tests, ∀ tc : TestCaseResult, tc? = some tc →
    tc.sub_results = none)

theorem stateInv_step (c w : String) (s : ConvertState) (r? : Option TestResult)
    (h : StateInv s) : StateInv (convert_results_step c w s r?) := by
  obtain ⟨hg, hn⟩ := h
  cases r? with
  | none => exact ⟨hg, hn⟩
  | some r =>
    by_cases hdd : is_data_driven_test r.name = true
    · cases hlook : dict_get? s.data_driven_tests (get_ddt_base_name r.name) with
      | some parent =>
        cases hcsr : convert_to_sub_test c r with
        | none =>
          have hstep : convert_results_step c w s (some r) = s := by
            simp [convert_results_step, hdd, hlook, hcsr]
          rw [hstep]
          exact ⟨hg, hn⟩
        | some sub_test =>
          have hstep : convert_results_step c w s (some r) =
              { s with
                data_driven_tests :=
                  dict_set s.data_driven_tests (get_ddt_base_name r.name)
                    { parent with
                      sub_results := some (parent.sub_results.getD [] ++ [sub_test])
                      outcome :=
                        if sub_test.outcome = "Failed" then "Failed" else parent.outcome }
                test_name_ordering :=
                  dict_set s.test_name_ordering (get_ddt_base_name r.name)
                    ((dict_get? s.test_name_ordering
                      (get_ddt_base_name r.name)).getD [] ++ [r.name]) } := by
            simp [convert_results_step, hdd, hlook, hcsr]
          rw [hstep]
          refine ⟨?_, hn⟩
          intro q hq
          rcases mem_dict_set hq with hq' | hq'
          · rw [hq']

            obtain ⟨subs, hsubs, hne, hiff, hhead⟩ :=
              hg (get_ddt_base_name r.name, parent) (dict_get?_mem hlook)
            dsimp only at hsubs hiff hhead
            refine ⟨subs ++ [sub_test], by simp [hsubs], by simp, ?_, ?_⟩
            · by_cases hfail : sub_test.outcome = "Failed"
              · constructor
                · intro _
                  exact ⟨sub_test, by simp, hfail⟩
                · intro _
                  simp [hfail]
              · simp only [if_neg hfail]
                rw [hiff]
                constructor
                · rintro ⟨sub, hs, ho⟩
                  exact ⟨sub, by simp [hs], ho⟩
                · rintro ⟨sub, hs, ho⟩
                  rcases List.mem_append.1 hs with hs | hs
                  · exact ⟨sub, hs, ho⟩
                  · rw [List.mem_singleton.1 hs] at ho
                    exact absurd ho hfail
            · intro hnofail
              have hf : sub_test.outcome ≠ "Failed" := fun hx =>
                hnofail ⟨sub_test, by simp, hx⟩
              have hnofail' : ¬ ∃ sub ∈ subs, sub.outcome = "Failed" := by
                rintro ⟨sub, hs, ho⟩
                exact hnofail ⟨sub, by simp [hs], ho⟩
              have hpar := hhead hnofail'
              cases subs with
              | nil => exact absurd rfl hne
              | cons a as =>
                simpa [hf, List.headI] using hpar
          · exact hg q hq'
      | none =>
        cases hcr : convert_result c w r with
        | none =>
          have hstep : convert_results_step c w s (some r) = s := by
            simp [convert_results_step, hdd, hlook, hcr]
          rw [hstep]
          exact ⟨hg, hn⟩
        | some cr =>
          cases hcsr : convert_to_sub_test c r with
          | none =>
            have hstep : convert_results_step c w s (some r) = s := by
              simp [convert_results_step, hdd, hlook, hcr, hcsr]
            rw [hstep]
            exact ⟨hg, hn⟩
          | some csr =>
            have hstep : convert_results_step c w s (some r) =
                { s with
                  data_driven_tests :=
                    dict_set s.data_driven_tests (get_ddt_base_name r.name)
                      { cr with
                        automated_test_name := get_ddt_base_name r.name
                        result_group_type := some "dataDriven"
                        sub_results := some [csr] }
                  test_name_ordering :=
                    dict_set s.test_name_ordering (get_ddt_base_name r.name) [r.name] } := by
              simp [convert_results_step, hdd, hlook, hcr, hcsr]
            rw [hstep]
            refine ⟨?_, hn⟩
            intro q hq
            rcases mem_dict_set hq with hq' | hq'
            · rw [hq']
              have houts := convert_outcome_eq c w r hcr hcsr
              refine ⟨[csr], rfl, by simp, ?_, ?_⟩
              · simp only [List.mem_singleton]
                constructor
                · intro hx
                  exact ⟨csr, rfl, by rw [← houts]; exact hx⟩
                · rintro ⟨sub, hs, ho⟩
                  subst hs
                  rw [houts]
                  exact ho
              · intro _
                simpa [List.headI] using houts
            · exact hg q hq'
    · have hstep : convert_results_step c w s (some r) =
          { s with
            non_data_driven_tests :=
              s.non_data_driven_tests ++ [convert_result c w r]
            test_name_ordering := dict_set s.test_name_ordering r.name [] } := by
        simp [convert_results_step, hdd]
      rw [hstep]
      refine ⟨hg, ?_⟩
      intro tc? htc tc htceq
      rcases List.mem_append.1 htc with hmem | hmem
      · exact hn tc? hmem tc htceq
      · rw [List.mem_singleton.1 hmem] at htceq
        exact convert_result_sub_results_none c w r htceq

theorem stateInv_fold (c w : String) (rs : List (Option TestResult)) :
    StateInv (convert_state c w rs) := by
  have hinit : StateInv initConvertState := by
    constructor
    · intro q hq
      simp [initConvertState] at hq
    · intro tc? htc
      simp [initConvertState] at htc
  have h := foldl_inv (convert_results_step c w) (fun _ s => StateInv s) (fun _ => True)
    (fun _ s r? _ hp => stateInv_step c w s r? hp) rs [] initConvertState
    (fun _ _ => trivial) hinit
  exact h

theorem failed_mono_step (c w : String) (s : ConvertState) (r? : Option TestResult)
    (base : PyStr) (tc : TestCaseResult)
    (h : dict_get? s.data_driven_tests base = some tc) (hf : tc.outcome = "Failed") :
    ∃ tc', dict_get? (convert_results_step c w s r?).data_driven_tests base = some tc' ∧
      tc'.outcome = "Failed" := by
  cases r? with
  | none => exact ⟨tc, h, hf⟩
  | some r =>
    by_cases hdd : is_data_driven_test r.name = true
    · cases hlook : dict_get? s.data_driven_tests (get_ddt_base_name r.name) with
      | some parent =>
        cases hcsr : convert_to_sub_test c r with
        | none =>
          have hstep : convert_results_step c w s (some r) = s := by
            simp [convert_results_step, hdd, hlook, hcsr]
          rw [hstep]
          exact ⟨tc, h, hf⟩
        | some sub_test =>
          have hstep : (convert_results_step c w s (some r)).data_driven_tests =
              dict_set s.data_driven_tests (get_ddt_base_name r.name)
                { parent with
                  sub_results := some (parent.sub_results.getD [] ++ [sub_test])
                  outcome :=
                    if sub_test.outcome = "Failed" then "Failed" else parent.outcome } := by
            simp [convert_results_step, hdd, hlook, hcsr]
          rw [hstep]
          by_cases hb : get_ddt_base_name r.name = base
          · subst hb
            rw [hlook] at h
            injection h with h
            subst h
            refine ⟨_, dict_get?_set_self _ _ _, ?_⟩
            by_cases hfail : sub_test.outcome = "Failed" <;> simp [hfail, hf]
          · rw [dict_get?_set_ne _ _ _ _ hb]
            exact ⟨tc, h, hf⟩
      | none =>
        cases hcr : convert_result c w r with
        | none =>
          have hstep : convert_results_step c w s (some r) = s := by
            simp [convert_results_step, hdd, hlook, hcr]
          rw [hstep]
          exact ⟨tc, h, hf⟩
        | some cr =>
          cases hcsr : convert_to_sub_test c r with
          | none =>
            have hstep : convert_results_step c w s (some r) = s := by
              simp [convert_results_step, hdd, hlook, hcr, hcsr]
            rw [hstep]
            exact ⟨tc, h, hf⟩
          | some csr =>
            have hb : get_ddt_base_name r.name ≠ base := by
              intro hx
              rw [hx, h] at hlook
              cases hlook
            have hstep : (convert_results_step c w s (some r)).data_driven_tests =
                dict_set s.data_driven_tests (get_ddt_base_name r.name)
                  { cr with
                    automated_test_name := get_ddt_base_name r.name
                    result_group_type := some "dataDriven"
                    sub_results := some [csr] } := by
              simp [convert_results_step, hdd, hlook, hcr, hcsr]
            rw [hstep, dict_get?_set_ne _ _ _ _ hb]
            exact ⟨tc, h, hf⟩
    · have hstep : (convert_results_step c w s (some r)).data_driven_tests =
          s.data_driven_tests := by
        simp [convert_results_step, hdd]
      rw [hstep]
      exact ⟨tc, h, hf⟩

theorem failed_mono_fold (c w : String) (base : PyStr) :
    ∀ (more : List (Option TestResult)) (s : ConvertState),
      (∃ tc, dict_get? s.data_driven_tests base = some tc ∧ tc.outcome = "Failed") →
      ∃ tc,
        dict_get? ((more.foldl (convert_results_step c w) s)).data_driven_tests base =
          some tc ∧ tc.outcome = "Failed" := by
  intro more
  induction more with
  | nil => exact fun s h => h
  | cons r? more ih =>
    rintro s ⟨tc, h, hf⟩
    exact ih _ (failed_mono_step c w s r? base tc h hf)

/-- Claim C1: every node returned by `convert_results` that carries a
non-empty sub-result list (exactly the grouped nodes) has outcome `Failed`
if and only if one of its sub-results has outcome `Failed`; when none has,
the node keeps the outcome of its first sub-result, which is the first-seen
variant converted through the standard outcome table; and once a group has
outcome `Failed` after processing a batch, processing any further records of
the same batch leaves it `Failed`. -/
theorem grouped_outcome_failed_iff (c w : String) (rs more : List (Option TestResult)) :
    (∀ tc? ∈ (convert_results c w rs).1, ∀ tc : TestCaseResult, tc? = some tc →
      ∀ subs, tc.sub_results = some subs → subs ≠ [] →
        ((tc.outcome = "Failed" ↔ ∃ sub ∈ subs, sub.outcome = "Failed") ∧
          ((¬ ∃ sub ∈ subs, sub.outcome = "Failed") → tc.outcome = subs.headI.outcome))) ∧
    (∀ base tc, dict_get? (convert_state c w rs).data_driven_tests base = some tc →
      tc.outcome = "Failed" →
      ∃ tc', dict_get? (convert_state c w (rs ++ more)).data_driven_tests base = some tc' ∧
        tc'.outcome = "Failed") := by
  constructor
  · intro tc? htc tc htceq subs hsubs hne
    obtain ⟨hg, hnn⟩ := stateInv_fold c w rs
    have htc2 : tc? ∈ (dict_values (convert_state c w rs).data_driven_tests).map some ++
        (convert_state c w rs).non_data_driven_tests := htc
    rcases List.mem_append.1 htc2 with hmem | hmem
    · obtain ⟨v, hv, hveq⟩ := List.mem_map.1 hmem
      obtain ⟨q, hq, hqv⟩ := List.mem_map.1 hv
      rw [htceq] at hveq
      injection hveq with hveq
      obtain ⟨subs0, hs0, hne0, hiff0, hhead0⟩ := hg q hq
      rw [hqv, hveq] at hs0 hiff0 hhead0
      rw [hsubs] at hs0
      injection hs0 with hs0
      rw [hs0]
      exact ⟨hiff0, hhead0⟩
    · have := hnn tc? hmem tc htceq
      rw [this] at hsubs
      cases hsubs
  · intro base tc h hf
    have happ : convert_state c w (rs ++ more) =
        more.foldl (convert_results_step c w) (convert_state c w rs) := by
      simp [convert_state, List.foldl_append]
    rw [happ]
    exact failed_mono_fold c w base more _ ⟨tc, h, hf⟩

/-- The input of the C1 witness: a passing and a failing variant of `A`. -/
def rsPF : List (Option TestResult) :=
  [some (mkRecord "A(1)" "Pass"), some (mkRecord "A(2)" "Fail")]

/-- The grouped node `convert_results` produces for `rsPF`. -/
def tcPF : TestCaseResult := (((convert_results "" "" rsPF).1).headI).getD default

/-- The sub-results of `tcPF`. -/
def subsPF : List TestSubResult := tcPF.sub_results.getD []

theorem grouped_outcome_failed_iff_witness :
    some tcPF ∈ (convert_results "" "" rsPF).1 ∧
    tcPF.sub_results = some subsPF ∧
    subsPF ≠ [] ∧
    (tcPF.outcome = "Failed" ↔ ∃ sub ∈ subsPF, sub.outcome = "Failed") := by
  have hlist : (convert_results "" "" rsPF).1 = [some tcPF] := rfl
  have hmem : some tcPF ∈ (convert_results "" "" rsPF).1 := by
    rw [hlist]
    exact List.mem_singleton_self _
  have hne : subsPF ≠ [] := by
    intro h
    have hlen : subsPF.length = 2 := rfl
    rw [h] at hlen
    exact absurd hlen (by decide)
  exact ⟨hmem, rfl, hne,
    ((grouped_outcome_failed_iff "" "" rsPF []).1 (some tcPF) hmem tcPF rfl
      subsPF rfl hne).1⟩

/-! ### Claim C2: what the ordering index records -/

theorem recognized_variant_names_append_none (base : PyStr)
    (pre : List (Option TestResult)) :
    recognized_variant_names base (pre ++ [none]) = recognized_variant_names base pre := by
  simp [recognized_variant_names]

theorem recognized_variant_names_append_some (base : PyStr)
    (pre : List (Option TestResult)) (r : TestResult) :
    recognized_variant_names base (pre ++ [some r]) =
      recognized_variant_names base pre ++
        (if is_data_driven_test r.name && is_recognized r.result &&
            decide (get_ddt_base_name r.name = base) then [r.name] else []) := by
  by_cases h : (is_data_driven_test r.name && is_recognized r.result &&
      decide (get_ddt_base_name r.name = base)) = true <;>
    simp [recognized_variant_names, List.filterMap_append, List.filter_append, h]

/-- The loop-state invariant behind claim C2, for a fixed base name that no
standalone record collides with: the base is a group key exactly when a
recognized variant of it has been seen, and its ordering entry (once
present) is exactly the list of recognized variant names seen so far. -/
def OrdInv (base : PyStr) (pre : List (Option TestResult)) (s : ConvertState) : Prop :=
  ((dict_get? s.data_driven_tests base).isSome = true ↔
    recognized_variant_names base pre ≠ []) ∧
  dict_get? s.test_name_ordering base =
    (if recognized_variant_names base pre = [] then none
     else some (recognized_variant_names base pre))

theorem ordInv_step (c w : String) (base : PyStr) (pre : List (Option TestResult))
    (s : ConvertState) (r? : Option TestResult)
    (hq : ∀ r : TestResult, r? = some r → is_data_driven_test r.name = false →
      r.name ≠ base)
    (h : OrdInv base pre s) : OrdInv base (pre ++ [r?]) (convert_results_step c w s r?) := by
  obtain ⟨hdict, hord⟩ := h
  cases r? with
  | none =>
    exact ⟨by rwa [recognized_variant_names_append_none],
      by rwa [recognized_variant_names_append_none]⟩
  | some r =>
    by_cases hdd : is_data_driven_test r.name = true
    · by_cases hb : get_ddt_base_name r.name = base
      · subst hb
        by_cases hrec : is_recognized r.result = true
        · have happ : recognized_variant_names (get_ddt_base_name r.name) (pre ++ [some r]) =
              recognized_variant_names (get_ddt_base_name r.name) pre ++ [r.name] := by
            rw [recognized_variant_names_append_some]
            simp [hdd, hrec]
          cases hlook : dict_get? s.data_driven_tests (get_ddt_base_name r.name) with
          | some parent =>
            have hne : recognized_variant_names (get_ddt_base_name r.name) pre ≠ [] :=
              hdict.1 (by rw [hlook]; rfl)
            have hordval : dict_get? s.test_name_ordering (get_ddt_base_name r.name) =
                some (recognized_variant_names (get_ddt_base_name r.name) pre) := by
              rw [hord, if_neg hne]
            obtain ⟨sub_test, hcsr⟩ := convert_to_sub_test_of_recognized c r hrec
            have hstep : convert_results_step c w s (some r) =
                { s with
                  data_driven_tests :=
                    dict_set s.data_driven_tests (get_ddt_base_name r.name)
                      { parent with
                        sub_results := some (parent.sub_results.getD [] ++ [sub_test])
                        outcome :=
                          if sub_test.outcome = "Failed" then "Failed"
                          else parent.outcome }
                  test_name_ordering :=
                    dict_set s.test_name_ordering (get_ddt_base_name r.name)
                      ((dict_get? s.test_name_ordering
                        (get_ddt_base_name r.name)).getD [] ++ [r.name]) } := by
              simp [convert_results_step, hdd, hlook, hcsr]
            rw [hstep]
            constructor
            · rw [happ]
              constructor
              · intro _
                simp
              · intro _
                rw [dict_get?_set_self]
                rfl
            · have hne2 : recognized_variant_names (get_ddt_base_name r.name) pre ++
                  [r.name] ≠ [] := by simp
              rw [happ, if_neg hne2, hordval]
              dsimp only
              rw [dict_get?_set_self]
              simp
          | none =>
            have hempty : recognized_variant_names (get_ddt_base_name r.name) pre = [] := by
              by_contra hne
              have := hdict.2 hne
              rw [hlook] at this
              cases this
            obtain ⟨cr, hcr⟩ := convert_result_of_recognized c w r hrec
            obtain ⟨csr, hcsr⟩ := convert_to_sub_test_of_recognized c r hrec
            have hstep : convert_results_step c w s (some r) =
                { s with
                  data_driven_tests :=
                    dict_set s.data_driven_tests (get_ddt_base_name r.name)
                      { cr with
                        automated_test_name := get_ddt_base_name r.name
                        result_group_type := some "dataDriven"
                        sub_results := some [csr] }
                  test_name_ordering :=
                    dict_set s.test_name_ordering (get_ddt_base_name r.name) [r.name] } := by
              simp [convert_results_step, hdd, hlook, hcr, hcsr]
            rw [hstep]
            constructor
            · rw [happ, hempty]
              constructor
              · intro _
                simp
              · intro _
                rw [dict_get?_set_self]
                rfl
            · have hne2 : ([] : List PyStr) ++ [r.name] ≠ [] := by simp
              rw [happ, hempty, if_neg hne2]
              dsimp only
              rw [dict_get?_set_self]
              simp
        · have hrecf : is_recognized r.result = false := by simpa using hrec
          have happ : recognized_variant_names (get_ddt_base_name r.name) (pre ++ [some r]) =
              recognized_variant_names (get_ddt_base_name r.name) pre := by
            rw [recognized_variant_names_append_some]
            simp [hrecf]
          have hcsr : convert_to_sub_test c r = none :=
            (convert_to_sub_test_eq_none_iff c r).2 hrecf
          have hcr : convert_result c w r = none :=
            (convert_result_eq_none_iff c w r).2 hrecf
          cases hlook : dict_get? s.data_driven_tests (get_ddt_base_name r.name) with
          | some parent =>
            have hstep : convert_results_step c w s (some r) = s := by
              simp [convert_results_step, hdd, hlook, hcsr]
            rw [hstep]
            exact ⟨by rw [happ]; exact hdict, by rw [happ]; exact hord⟩
          | none =>
            have hstep : convert_results_step c w s (some r) = s := by
              simp [convert_results_step, hdd, hlook, hcr]
            rw [hstep]
            exact ⟨by rw [happ]; exact hdict, by rw [happ]; exact hord⟩
      · have happ : recognized_variant_names base (pre ++ [some r]) =
            recognized_variant_names base pre := by
          rw [recognized_variant_names_append_some]
          simp [hb]
        cases hlook : dict_get? s.data_driven_tests (get_ddt_base_name r.name) with
        | some parent =>
          cases hcsr : convert_to_sub_test c r with
          | none =>
            have hstep : convert_results_step c w s (some r) = s := by
              simp [convert_results_step, hdd, hlook, hcsr]
            rw [hstep]
            exact ⟨by rw [happ]; exact hdict, by rw [happ]; exact hord⟩
          | some sub_test =>
            have hstep : convert_results_step c w s (some r) =
                { s with
                  data_driven_tests :=
                    dict_set s.data_driven_tests (get_ddt_base_name r.name)
                      { parent with
                        sub_results := some (parent.sub_results.getD [] ++ [sub_test])
                        outcome :=
                          if sub_test.outcome = "Failed" then "Failed"
                          else parent.outcome }
                  test_name_ordering :=
                    dict_set s.test_name_ordering (get_ddt_base_name r.name)
                      ((dict_get? s.test_name_ordering
                        (get_ddt_base_name r.name)).getD [] ++ [r.name]) } := by
              simp [convert_results_step, hdd, hlook, hcsr]
            rw [hstep]
            constructor
            · rw [happ]
              dsimp only
              rw [dict_get?_set_ne _ _ _ _ hb]
              exact hdict
            · rw [happ]
              dsimp only
              rw [dict_get?_set_ne _ _ _ _ hb]
              exact hord
        | none =>
          cases hcr : convert_result c w r with
          | none =>
            have hstep : convert_results_step c w s (some r) = s := by
              simp [convert_results_step, hdd, hlook, hcr]
            rw [hstep]
            exact ⟨by rw [happ]; exact hdict, by rw [happ]; exact hord⟩
          | some cr =>
            cases hcsr : convert_to_sub_test c r with
            | none =>
              have hstep : convert_results_step c w s (some r) = s := by
                simp [convert_results_step, hdd, hlook, hcr, hcsr]
              rw [hstep]
              exact ⟨by rw [happ]; exact hdict, by rw [happ]; exact hord⟩
            | some csr =>
              have hstep : convert_results_step c w s (some r) =
                  { s with
                    data_driven_tests :=
                      dict_set s.data_driven_tests (get_ddt_base_name r.name)
                        { cr with
                          automated_test_name := get_ddt_base_name r.name
                          result_group_type := some "dataDriven"
                          sub_results := some [csr] }
                    test_name_ordering :=
                      dict_set s.test_name_ordering (get_ddt_base_name r.name) [r.name] } := by
                simp [convert_results_step, hdd, hlook, hcr, hcsr]
              rw [hstep]
              constructor
              · rw [happ]
                dsimp only
                rw [dict_get?_set_ne _ _ _ _ hb]
                exact hdict
              · rw [happ]
                dsimp only
                rw [dict_get?_set_ne _ _ _ _ hb]
                exact hord
    · have hddf : is_data_driven_test r.name = false := by simpa using hdd
      have hname : r.name ≠ base := hq r rfl hddf
      have happ : recognized_variant_names base (pre ++ [some r]) =
          recognized_variant_names base pre := by
        rw [recognized_variant_names_append_some]
        simp [hddf]
      have hstep : convert_results_step c w s (some r) =
          { s with
            non_data_driven_tests :=
              s.non_data_driven_tests ++ [convert_result c w r]
            test_name_ordering := dict_set s.test_name_ordering r.name [] } := by
        simp [convert_results_step, hddf]
      rw [hstep]
      constructor
      · rw [happ]
        exact hdict
      · rw [happ]
        dsimp only
        rw [dict_get?_set_ne _ _ _ _ hname]
        exact hord

/-- Claim C2 (amended): for a base name that no standalone (non-variant)
record collides with, the ordering entry for that base lists, in input
order, exactly the original names of the variant records of that base whose
outcome value is recognized; variants with unrecognized outcomes are
omitted. -/
theorem ordering_entry_characterization (c w : String) (rs : List (Option TestResult))
    (base : PyStr) (os : List PyStr)
    (hnc : ∀ r ∈ rs.filterMap id, is_data_driven_test r.name = true ∨ r.name ≠ base)
    (hos : dict_get? (convert_results c w rs).2 base = some os) :
    os = recognized_variant_names base rs := by
  have hinit : OrdInv base [] initConvertState := by
    constructor
    · simp [initConvertState, dict_get?, recognized_variant_names]
    · simp [initConvertState, dict_get?, recognized_variant_names]
  have hQ : ∀ r? ∈ rs, ∀ r : TestResult, r? = some r →
      is_data_driven_test r.name = false → r.name ≠ base := by
    intro r? hr? r hreq hddf
    have hmem : r ∈ rs.filterMap id := List.mem_filterMap.2 ⟨r?, hr?, hreq⟩
    rcases hnc r hmem with h | h
    · rw [hddf] at h
      cases h
    · exact h
  have hfold := foldl_inv (convert_results_step c w) (OrdInv base)
    (fun r? => ∀ r : TestResult, r? = some r → is_data_driven_test r.name = false →
      r.name ≠ base)
    (fun pre s r? hq hp => ordInv_step c w base pre s r? hq hp) rs [] initConvertState
    hQ hinit
  rw [List.nil_append] at hfold
  obtain ⟨_, hord⟩ := hfold
  have hos2 : dict_get? (rs.foldl (convert_results_step c w)
      initConvertState).test_name_ordering base = some os := hos
  by_cases hempty : recognized_variant_names base rs = []
  · rw [hord, if_pos hempty] at hos2
    cases hos2
  · rw [hord, if_neg hempty] at hos2
    injection hos2 with hos2
    exact hos2.symm

theorem ordering_entry_characterization_witness :
    (∀ r ∈ ([some (mkRecord "A(1)" "Pass"), some (mkRecord "A(2)" "Bogus"),
        some (mkRecord "A(3)" "Fail")] : List (Option TestResult)).filterMap id,
      is_data_driven_test r.name = true ∨ r.name ≠ "A".data) ∧
    dict_get? (convert_results "" ""
        [some (mkRecord "A(1)" "Pass"), some (mkRecord "A(2)" "Bogus"),
         some (mkRecord "A(3)" "Fail")]).2 "A".data =
      some ["A(1)".data, "A(3)".data] ∧
    ["A(1)".data, "A(3)".data] =
      recognized_variant_names "A".data
        [some (mkRecord "A(1)" "Pass"), some (mkRecord "A(2)" "Bogus"),
         some (mkRecord "A(3)" "Fail")] :=
  ⟨by decide, by decide,
    ordering_entry_characterization "" ""
      [some (mkRecord "A(1)" "Pass"), some (mkRecord "A(2)" "Bogus"),
       some (mkRecord "A(3)" "Fail")] "A".data ["A(1)".data, "A(3)".data]
      (by decide) (by decide)⟩

/-! ### Claim C3: output node order -/

theorem group_bases_append (pre : List (Option TestResult)) (r? : Option TestResult) :
    group_bases (pre ++ [r?]) = group_bases_step (group_bases pre) r? := by
  simp [group_bases, List.foldl_append]

theorem standalone_records_append (pre : List (Option TestResult)) (r? : Option TestResult) :
    standalone_records (pre ++ [r?]) =
      standalone_records pre ++
        (match r? with
         | none => []
         | some r => if is_data_driven_test r.name then [] else [r]) := by
  cases r? with
  | none => simp [standalone_records]
  | some r =>
    by_cases h : is_data_driven_test r.name <;>
      simp [standalone_records, List.filterMap_append, List.filter_append, h]

theorem insert_new_of_mem {l : List PyStr} {x : PyStr} (h : x ∈ l) :
    insert_new l x = l := if_pos h

theorem insert_new_of_not_mem {l : List PyStr} {x : PyStr} (h : x ∉ l) :
    insert_new l x = l ++ [x] := if_neg h

theorem group_bases_step_unrecognized (acc : List PyStr) (r : TestResult)
    (h : is_recognized r.result = false) : group_bases_step acc (some r) = acc := by
  simp [group_bases_step, h]

theorem group_bases_step_standalone (acc : List PyStr) (r : TestResult)
    (h : is_data_driven_test r.name = false) : group_bases_step acc (some r) = acc := by
  simp [group_bases_step, h]

theorem group_bases_step_recognized (acc : List PyStr) (r : TestResult)
    (h1 : is_data_driven_test r.name = true) (h2 : is_recognized r.result = true) :
    group_bases_step acc (some r) = insert_new acc (get_ddt_base_name r.name) := by
  simp [group_bases_step, h1, h2]

/-- The loop-state invariant behind claim C3: the group dict keys are the
bases in creation order, each group node's `automated_test_name` is its key,
and the standalone node list matches the conversions of the standalone
records in input order. -/
def NodesInv (c w : String) (pre : List (Option TestResult)) (s : ConvertState) : Prop :=
  s.data_driven_tests.map (fun q => q.1) = group_bases pre ∧
  (∀ q ∈ s.data_driven_tests, q.2.automated_test_name = q.1) ∧
  s.non_data_driven_tests.map (Option.map (fun n => n.automated_test_name)) =
    (standalone_records pre).map
      (fun r => (convert_result c w r).map (fun n => n.automated_test_name))

theorem nodesInv_step (c w : String) (pre : List (Option TestResult)) (s : ConvertState)
    (r? : Option TestResult) (h : NodesInv c w pre s) :
    NodesInv c w (pre ++ [r?]) (convert_results_step c w s r?) := by
  obtain ⟨hkeys, hnames, hnon⟩ := h
  cases r? with
  | none =>
    refine ⟨?_, hnames, ?_⟩
    · rw [group_bases_append]
      exact hkeys
    · rw [standalone_records_append]
      simpa using hnon
  | some r =>
    by_cases hdd : is_data_driven_test r.name = true
    · have hstand : (standalone_records (pre ++ [some r])).map
          (fun r => (convert_result c w r).map (fun n => n.automated_test_name)) =
          (standalone_records pre).map
            (fun r => (convert_result c w r).map (fun n => n.automated_test_name)) := by
        rw [standalone_records_append]
        simp [hdd]
      cases hlook : dict_get? s.data_driven_tests (get_ddt_base_name r.name) with
      | some parent =>
        cases hcsr : convert_to_sub_test c r with
        | none =>
          have hrec : is_recognized r.result = false :=
            (convert_to_sub_test_eq_none_iff c r).1 hcsr
          have hstep : convert_results_step c w s (some r) = s := by
            simp [convert_results_step, hdd, hlook, hcsr]
          rw [hstep]
          refine ⟨?_, hnames, ?_⟩
          · rw [group_bases_append, group_bases_step_unrecognized _ _ hrec]
            exact hkeys
          · rw [hstand]
            exact hnon
        | some sub_test =>
          have hrec : is_recognized r.result = true := by
            by_contra hx
            have h0 : convert_to_sub_test c r = none :=
              (convert_to_sub_test_eq_none_iff c r).2 (by simpa using hx)
            rw [h0] at hcsr
            cases hcsr
          have hstep : convert_results_step c w s (some r) =
              { s with
                data_driven_tests :=
                  dict_set s.data_driven_tests (get_ddt_base_name r.name)
                    { parent with
                      sub_results := some (parent.sub_results.getD [] ++ [sub_test])
                      outcome :=
                        if sub_test.outcome = "Failed" then "Failed" else parent.outcome }
                test_name_ordering :=
                  dict_set s.test_name_ordering (get_ddt_base_name r.name)
                    ((dict_get? s.test_name_ordering
                      (get_ddt_base_name r.name)).getD [] ++ [r.name]) } := by
            simp [convert_results_step, hdd, hlook, hcsr]
          rw [hstep]
          have hisSome : (dict_get? s.data_driven_tests
              (get_ddt_base_name r.name)).isSome = true := by
            rw [hlook]
            rfl
          refine ⟨?_, ?_, ?_⟩
          · dsimp only
            rw [dict_keys_set_of_isSome _ hisSome, group_bases_append]
            have hmem : get_ddt_base_name r.name ∈ group_bases pre := by
              rw [← hkeys]
              exact (dict_get?_isSome_iff _ _).1 hisSome
            rw [group_bases_step_recognized _ _ hdd hrec, insert_new_of_mem hmem]
            exact hkeys
          · intro q hq
            rcases mem_dict_set hq with hq' | hq'
            · rw [hq']
              exact hnames (get_ddt_base_name r.name, parent) (dict_get?_mem hlook)
            · exact hnames q hq'
          · rw [hstand]
            exact hnon
      | none =>
        cases hcr : convert_result c w r with
        | none =>
          have hrec : is_recognized r.result = false :=
            (convert_result_eq_none_iff c w r).1 hcr
          have hstep : convert_results_step c w s (some r) = s := by
            simp [convert_results_step, hdd, hlook, hcr]
          rw [hstep]
          refine ⟨?_, hnames, ?_⟩
          · rw [group_bases_append, group_bases_step_unrecognized _ _ hrec]
            exact hkeys
          · rw [hstand]
            exact hnon
        | some cr =>
          cases hcsr : convert_to_sub_test c r with
          | none =>
            have hrec : is_recognized r.result = false :=
              (convert_to_sub_test_eq_none_iff c r).1 hcsr
            have hstep : convert_results_step c w s (some r) = s := by
              simp [convert_results_step, hdd, hlook, hcr, hcsr]
            rw [hstep]
            refine ⟨?_, hnames, ?_⟩
            · rw [group_bases_append, group_bases_step_unrecognized _ _ hrec]
              exact hkeys
            · rw [hstand]
              exact hnon
          | some csr =>
            have hrec : is_recognized r.result = true := by
              by_contra hx
              have h0 : convert_result c w r = none :=
                (convert_result_eq_none_iff c w r).2 (by simpa using hx)
              rw [h0] at hcr
              cases hcr
            have hstep : convert_results_step c w s (some r) =
                { s with
                  data_driven_tests :=
                    dict_set s.data_driven_tests (get_ddt_base_name r.name)
                      { cr with
                        automated_test_name := get_ddt_base_name r.name
                        result_group_type := some "dataDriven"
                        sub_results := some [csr] }
                  test_name_ordering :=
                    dict_set s.test_name_ordering (get_ddt_base_name r.name) [r.name] } := by
              simp [convert_results_step, hdd, hlook, hcr, hcsr]
            rw [hstep]
            have hnotmem : get_ddt_base_name r.name ∉ group_bases pre := by
              rw [← hkeys]
              intro hx
              have := (dict_get?_isSome_iff s.data_driven_tests _).2 hx
              rw [hlook] at this
              cases this
            refine ⟨?_, ?_, ?_⟩
            · dsimp only
              rw [dict_set_eq_append _ hlook, List.map_append, hkeys, group_bases_append,
                group_bases_step_recognized _ _ hdd hrec, insert_new_of_not_mem hnotmem]
              rfl
            · intro q hq
              rcases mem_dict_set hq with hq' | hq'
              · rw [hq']
              · exact hnames q hq'
            · rw [hstand]
              exact hnon
    · have hddf : is_data_driven_test r.name = false := by simpa using hdd
      have hstep : convert_results_step c w s (some r) =
          { s with
            non_data_driven_tests :=
              s.non_data_driven_tests ++ [convert_result c w r]
            test_name_ordering := dict_set s.test_name_ordering r.name [] } := by
        simp [convert_results_step, hddf]
      rw [hstep]
      refine ⟨?_, hnames, ?_⟩
      · rw [group_bases_append, group_bases_step_standalone _ _ hddf]
        exact hkeys
      · dsimp only
        rw [standalone_records_append]
        simp only [List.map_append]
        rw [hnon]
        simp [hddf]

/-- Claim C3 (amended): reading off every output node name, the node list of
`convert_results` is the grouped nodes first — one per base name, in group
creation order, i.e. ordered by each base's first variant record with a
recognized outcome — followed by the conversion results of the standalone
records in input order (a standalone record with an unrecognized outcome
contributing a null entry). -/
theorem nodes_grouped_first (c w : String) (rs : List (Option TestResult)) :
    ((convert_results c w rs).1).map (Option.map (fun n => n.automated_test_name)) =
      (group_bases rs).map some ++
      (standalone_records rs).map
        (fun r => (convert_result c w r).map (fun n => n.automated_test_name)) := by
  have hinit : NodesInv c w [] initConvertState := by
    refine ⟨rfl, ?_, rfl⟩
    intro q hq
    simp [initConvertState] at hq
  have hfold := foldl_inv (convert_results_step c w) (NodesInv c w) (fun _ => True)
    (fun pre s r? _ hp => nodesInv_step c w pre s r? hp) rs [] initConvertState
    (fun _ _ => trivial) hinit
  rw [List.nil_append] at hfold
  have hfold2 : NodesInv c w rs (convert_state c w rs) := hfold
  obtain ⟨hkeys, hnames, hnon⟩ := hfold2
  have hsplit : ((convert_results c w rs).1).map
      (Option.map (fun n => n.automated_test_name)) =
      ((dict_values (convert_state c w rs).data_driven_tests).map some).map
        (Option.map (fun n => n.automated_test_name)) ++
      ((convert_state c w rs).non_data_driven_tests).map
        (Option.map (fun n => n.automated_test_name)) := by
    rw [show (convert_results c w rs).1 =
        (dict_values (convert_state c w rs).data_driven_tests).map some ++
          (convert_state c w rs).non_data_driven_tests from rfl, List.map_append]
  rw [hsplit, hnon]
  congr 1
  rw [dict_values, List.map_map, List.map_map, ← hkeys, List.map_map]
  apply List.map_congr_left
  intro q hq
  have hname := hnames q hq
  simp [hname]

/-! ### Supporting fact: the round trip satisfies the C4 well-formedness
hypothesis — every group key of `convert_results` always has an ordering
entry, so `test_result_order[name]` cannot fail for nodes that went through
the grouping engine. -/

theorem dict_get?_set_isSome {α : Type} (d : PyDict α) (k k' : PyStr) (v : α)
    (h : (dict_get? d k').isSome = true) :
    (dict_get? (dict_set d k v) k').isSome = true := by
  by_cases hk : k = k'
  · subst hk
    rw [dict_get?_set_self]
    rfl
  · rw [dict_get?_set_ne _ _ _ _ hk]
    exact h

theorem ordering_covers_groups_step (c w : String) (s : ConvertState)
    (r? : Option TestResult)
    (h : ∀ base, (dict_get? s.data_driven_tests base).isSome = true →
      (dict_get? s.test_name_ordering base).isSome = true) :
    ∀ base,
      (dict_get? (convert_results_step c w s r?).data_driven_tests base).isSome = true →
      (dict_get? (convert_results_step c w s r?).test_name_ordering base).isSome = true := by
  cases r? with
  | none => exact h
  | some r =>
    by_cases hdd : is_data_driven_test r.name = true
    · cases hlook : dict_get? s.data_driven_tests (get_ddt_base_name r.name) with
      | some parent =>
        cases hcsr : convert_to_sub_test c r with
        | none =>
          have hstep : convert_results_step c w s (some r) = s := by
            simp [convert_results_step, hdd, hlook, hcsr]
          rw [hstep]
          exact h
        | some sub_test =>
          have hstep : convert_results_step c w s (some r) =
              { s with
                data_driven_tests :=
                  dict_set s.data_driven_tests (get_ddt_base_name r.name)
                    { parent with
                      sub_results := some (parent.sub_results.getD [] ++ [sub_test])
                      outcome :=
                        if sub_test.outcome = "Failed" then "Failed" else parent.outcome }
                test_name_ordering :=
                  dict_set s.test_name_ordering (get_ddt_base_name r.name)
                    ((dict_get? s.test_name_ordering
                      (get_ddt_base_name r.name)).getD [] ++ [r.name]) } := by
            simp [convert_results_step, hdd, hlook, hcsr]
          rw [hstep]
          intro base hbase
          dsimp only at hbase ⊢
          by_cases hb : get_ddt_base_name r.name = base
          · subst hb
            rw [dict_get?_set_self]
            rfl
          · rw [dict_get?_set_ne _ _ _ _ hb] at hbase
            exact dict_get?_set_isSome _ _ _ _ (h base hbase)
      | none =>
        cases hcr : convert_result c w r with
        | none =>
          have hstep : convert_results_step c w s (some r) = s := by
            simp [convert_results_step, hdd, hlook, hcr]
          rw [hstep]
          exact h
        | some cr =>
          cases hcsr : convert_to_sub_test c r with
          | none =>
            have hstep : convert_results_step c w s (some r) = s := by
              simp [convert_results_step, hdd, hlook, hcr, hcsr]
            rw [hstep]
            exact h
          | some csr =>
            have hstep : convert_results_step c w s (some r) =
                { s with
                  data_driven_tests :=
                    dict_set s.data_driven_tests (get_ddt_base_name r.name)
                      { cr with
                        automated_test_name := get_ddt_base_name r.name
                        result_group_type := some "dataDriven"
                        sub_results := some [csr] }
                  test_name_ordering :=
                    dict_set s.test_name_ordering (get_ddt_base_name r.name) [r.name] } := by
              simp [convert_results_step, hdd, hlook, hcr, hcsr]
            rw [hstep]
            intro base hbase
            dsimp only at hbase ⊢
            by_cases hb : get_ddt_base_name r.name = base
            · subst hb
              rw [dict_get?_set_self]
              rfl
            · rw [dict_get?_set_ne _ _ _ _ hb] at hbase
              exact dict_get?_set_isSome _ _ _ _ (h base hbase)
    · have hddf : is_data_driven_test r.name = false := by simpa using hdd
      have hstep : convert_results_step c w s (some r) =
          { s with
            non_data_driven_tests :=
              s.non_data_driven_tests ++ [convert_result c w r]
            test_name_ordering := dict_set s.test_name_ordering r.name [] } := by
        simp [convert_results_step, hddf]
      rw [hstep]
      intro base hbase
      exact dict_get?_set_isSome _ _ _ _ (h base hbase)

theorem ordering_covers_groups (c w : String) (rs : List (Option TestResult)) :
    ∀ base,
      (dict_get? (convert_state c w rs).data_driven_tests base).isSome = true →
      (dict_get? (convert_state c w rs).test_name_ordering base).isSome = true := by
  have hfold := foldl_inv (convert_results_step c w)
    (fun _ s => ∀ base, (dict_get? s.data_driven_tests base).isSome = true →
      (dict_get? s.test_name_ordering base).isSome = true)
    (fun _ => True)
    (fun _ s r? _ hp => ordering_covers_groups_step c w s r? hp) rs [] initConvertState
    (fun _ _ => trivial)
    (fun base hbase => by simp [initConvertState, dict_get?] at hbase)
  exact hfold

end HelixReporter
